import Mathlib

/-
  Verification of the Lobo real-time feature-fusion engine.

  Shallow embedding of `lob_analyzer/analyzer/trade_activity_analyzer.py`
  and `lob_analyzer/runner.py`.  Python floats are modelled as rationals,
  dictionaries as association lists with later-binding-wins semantics,
  and side effects (audit-log file writes, callback invocation, shutdown
  steps) as explicit action traces or state transformers.
-/

namespace Lobo

/-- One aggregated trade event as consumed by
`TradeActivityAnalyzer.process_event`.  Each field models the value
`event.get(key, default)` extracts in the Python code: an absent key is
the same as the field holding its default. -/
structure TradeAggregate where
  ts : ℚ
  buy_volume : ℚ := 0
  sell_volume : ℚ := 0
  buy_mean : ℚ := 0
  sell_mean : ℚ := 0
  avg_price : ℚ := 0
  trade_count : ℕ := 0
  deriving DecidableEq, Repr

/-- The `reason` field of an emitted activity-spike record. -/
inductive Reason
  | spike
  | imbalance
  | volume_exceeded
  deriving DecidableEq, Repr

/-- The `direction` field of an emitted activity-spike record. -/
inductive Direction
  | buy
  | sell
  deriving DecidableEq, Repr

/-- The `spike_data` dictionary built by `process_event` (the constant
`"type": "trade_activity_spike"` entry is omitted as it carries no
information). -/
structure SpikeData where
  ts : ℚ
  buy_volume : ℚ
  sell_volume : ℚ
  buy_sell_ratio : ℚ
  avg_price : ℚ
  trade_count : ℕ
  ma_volume : ℚ
  direction : Direction
  reason : Reason
  deriving DecidableEq, Repr

/-- Constructor arguments of `TradeActivityAnalyzer.__init__`, with the
documented defaults. -/
structure AnalyzerConfig where
  volume_threshold : ℚ := 10
  imbalance_ratio_high : ℚ := 2
  imbalance_ratio_low : ℚ := 1/2
  spike_multiplier : ℚ := 6/5
  enable_logging : Bool := true
  save_path : String := "activity_spikes.jsonl"

/-- Line 53 of the analyzer:
`spike = (ma_volume > 0 and total_volume / ma_volume > self.spike_multiplier)`. -/
def spikeCond (cfg : AnalyzerConfig) (e : TradeAggregate) : Prop :=
  0 < e.buy_mean + e.sell_mean ∧
    cfg.spike_multiplier < (e.buy_volume + e.sell_volume) / (e.buy_mean + e.sell_mean)

/-- Line 55 of the analyzer:
`buy_sell_ratio = buy_volume / sell_volume if sell_volume > 0 else 1_000_000.0 if buy_volume > 0 else 1.0`. -/
def buySellRatio (e : TradeAggregate) : ℚ :=
  if 0 < e.sell_volume then e.buy_volume / e.sell_volume
  else if 0 < e.buy_volume then 1000000
  else 1

/-- Lines 56-59 of the analyzer:
`imbalance = (buy_sell_ratio > high or buy_sell_ratio < low)`. -/
def imbalanceCond (cfg : AnalyzerConfig) (e : TradeAggregate) : Prop :=
  cfg.imbalance_ratio_high < buySellRatio e ∨ buySellRatio e < cfg.imbalance_ratio_low

/-- Line 60 of the analyzer: `volume_exceeded = total_volume > self.volume_threshold`. -/
def volumeExceededCond (cfg : AnalyzerConfig) (e : TradeAggregate) : Prop :=
  cfg.volume_threshold < e.buy_volume + e.sell_volume

instance (cfg : AnalyzerConfig) (e : TradeAggregate) : Decidable (spikeCond cfg e) :=
  inferInstanceAs (Decidable (_ ∧ _))

instance (cfg : AnalyzerConfig) (e : TradeAggregate) : Decidable (imbalanceCond cfg e) :=
  inferInstanceAs (Decidable (_ ∨ _))

instance (cfg : AnalyzerConfig) (e : TradeAggregate) : Decidable (volumeExceededCond cfg e) :=
  inferInstanceAs (Decidable (_ < _))

/-- Embeds `TradeActivityAnalyzer.process_event`, lines 38-76: the pure part, up
to and including the decision whether to emit and the contents of the
emitted `spike_data` record.  Returns `none` exactly when the function
returns without building `spike_data`. -/
def process_event (cfg : AnalyzerConfig) (e : TradeAggregate) : Option SpikeData :=
  if e.buy_volume + e.sell_volume = 0 then none
  else if spikeCond cfg e ∨ imbalanceCond cfg e ∨ volumeExceededCond cfg e then
    some
      { ts := e.ts
        buy_volume := e.buy_volume
        sell_volume := e.sell_volume
        buy_sell_ratio := buySellRatio e
        avg_price := e.avg_price
        trade_count := e.trade_count
        ma_volume := e.buy_mean + e.sell_mean
        direction := if 1 < buySellRatio e then Direction.buy else Direction.sell
        reason :=
          if spikeCond cfg e then Reason.spike
          else if imbalanceCond cfg e then Reason.imbalance
          else Reason.volume_exceeded }
  else none

/-- C1: an aggregate with nonnegative volumes makes `process_event` emit an
activity-spike record if and only if the total volume is strictly positive
and at least one of the spike, imbalance or volume-exceeded conditions
holds; `process_event` returns at most one record, so at most one event is
emitted per processed aggregate. -/
theorem process_event_emits_iff (cfg : AnalyzerConfig) (e : TradeAggregate)
    (hb : 0 ≤ e.buy_volume) (hs : 0 ≤ e.sell_volume) :
    (process_event cfg e).isSome ↔
      0 < e.buy_volume + e.sell_volume ∧
        (spikeCond cfg e ∨ imbalanceCond cfg e ∨ volumeExceededCond cfg e) := by
  have htot : e.buy_volume + e.sell_volume ≠ 0 → 0 < e.buy_volume + e.sell_volume :=
    fun h => (add_nonneg hb hs).lt_of_ne (Ne.symm h)
  unfold process_event
  by_cases h0 : e.buy_volume + e.sell_volume = 0
  · rw [if_pos h0]; simp [h0]
  · rw [if_neg h0]
    by_cases h1 : spikeCond cfg e ∨ imbalanceCond cfg e ∨ volumeExceededCond cfg e
    · rw [if_pos h1]; simp [htot h0, h1]
    · rw [if_neg h1]; simp [htot h0, h1]

theorem process_event_emits_iff_witness :
    (0:ℚ) ≤ 5 ∧ (0:ℚ) ≤ 6 ∧
      ((process_event {} { ts := 0, buy_volume := 5, sell_volume := 6 }).isSome ↔
        0 < (5:ℚ) + 6 ∧
          (spikeCond {} { ts := 0, buy_volume := 5, sell_volume := 6 } ∨
            imbalanceCond {} { ts := 0, buy_volume := 5, sell_volume := 6 } ∨
            volumeExceededCond {} { ts := 0, buy_volume := 5, sell_volume := 6 })) :=
  ⟨by norm_num, by norm_num,
    process_event_emits_iff {} { ts := 0, buy_volume := 5, sell_volume := 6 }
      (by norm_num) (by norm_num)⟩

/-- C6: in every emitted record, `buy_sell_ratio` is the quotient of the
volumes when the sell volume is positive, the sentinel 1000000 when the
sell volume is zero and the buy volume positive, and 1 when both are
zero; `direction` is `buy` exactly when the ratio exceeds 1, so equal
positive volumes yield direction `sell`. -/
theorem emitted_ratio_and_direction (cfg : AnalyzerConfig) (e : TradeAggregate) (d : SpikeData)
    (h : process_event cfg e = some d) :
    (0 < e.sell_volume → d.buy_sell_ratio = e.buy_volume / e.sell_volume) ∧
    (e.sell_volume = 0 → 0 < e.buy_volume → d.buy_sell_ratio = 1000000) ∧
    (e.sell_volume = 0 → e.buy_volume = 0 → d.buy_sell_ratio = 1) ∧
    (d.direction = Direction.buy ↔ 1 < d.buy_sell_ratio) ∧
    (0 < e.sell_volume → e.buy_volume = e.sell_volume → d.direction = Direction.sell) := by
  by_cases h0 : e.buy_volume + e.sell_volume = 0
  · rw [process_event, if_pos h0] at h; cases h
  rw [process_event, if_neg h0] at h
  by_cases h1 : spikeCond cfg e ∨ imbalanceCond cfg e ∨ volumeExceededCond cfg e
  · rw [if_pos h1, Option.some.injEq] at h
    subst h
    refine ⟨fun hsp => ?_, fun hs0 hbp => ?_, fun hs0 hb0 => ?_, ?_, fun hsp heq => ?_⟩
    · simp [buySellRatio, hsp]
    · simp [buySellRatio, hs0, hbp]
    · simp [buySellRatio, hs0, hb0]
    · by_cases hr : 1 < buySellRatio e <;> simp [hr]
    · have hr : buySellRatio e = 1 := by
        rw [buySellRatio, if_pos hsp, heq, div_self (ne_of_gt hsp)]
      simp [hr]
  · rw [if_neg h1] at h; cases h

theorem emitted_ratio_and_direction_witness :
    process_event {} { ts := 0, buy_volume := 3, sell_volume := 1 } =
      some { ts := 0, buy_volume := 3, sell_volume := 1, buy_sell_ratio := 3, avg_price := 0,
             trade_count := 0, ma_volume := 0, direction := Direction.buy,
             reason := Reason.imbalance } ∧
    ((0 < (1:ℚ) → (3:ℚ) = 3 / 1) ∧
     ((1:ℚ) = 0 → 0 < (3:ℚ) → (3:ℚ) = 1000000) ∧
     ((1:ℚ) = 0 → (3:ℚ) = 0 → (3:ℚ) = 1) ∧
     (Direction.buy = Direction.buy ↔ 1 < (3:ℚ)) ∧
     (0 < (1:ℚ) → (3:ℚ) = 1 → Direction.buy = Direction.sell)) :=
  ⟨by norm_num [process_event, spikeCond, imbalanceCond, volumeExceededCond, buySellRatio],
    emitted_ratio_and_direction {} { ts := 0, buy_volume := 3, sell_volume := 1 }
      { ts := 0, buy_volume := 3, sell_volume := 1, buy_sell_ratio := 3, avg_price := 0,
        trade_count := 0, ma_volume := 0, direction := Direction.buy,
        reason := Reason.imbalance }
      (by norm_num [process_event, spikeCond, imbalanceCond, volumeExceededCond, buySellRatio])⟩

/-- C7: the `reason` field of every emitted record is chosen by fixed
priority: `spike` whenever the spike condition holds, otherwise
`imbalance` whenever the imbalance condition holds, otherwise
`volume_exceeded`; being a single field, exactly one reason is recorded. -/
theorem emitted_reason_priority (cfg : AnalyzerConfig) (e : TradeAggregate) (d : SpikeData)
    (h : process_event cfg e = some d) :
    (spikeCond cfg e → d.reason = Reason.spike) ∧
    (¬ spikeCond cfg e → imbalanceCond cfg e → d.reason = Reason.imbalance) ∧
    (¬ spikeCond cfg e → ¬ imbalanceCond cfg e → d.reason = Reason.volume_exceeded) := by
  by_cases h0 : e.buy_volume + e.sell_volume = 0
  · rw [process_event, if_pos h0] at h; cases h
  rw [process_event, if_neg h0] at h
  by_cases h1 : spikeCond cfg e ∨ imbalanceCond cfg e ∨ volumeExceededCond cfg e
  · rw [if_pos h1, Option.some.injEq] at h
    subst h
    refine ⟨fun hsp => ?_, fun hnsp him => ?_, fun hnsp hnim => ?_⟩
    · simp [hsp]
    · simp [hnsp, him]
    · simp [hnsp, hnim]
  · rw [if_neg h1] at h; cases h

theorem emitted_reason_priority_witness :
    process_event {} { ts := 0, buy_volume := 30, sell_volume := 1 } =
      some { ts := 0, buy_volume := 30, sell_volume := 1, buy_sell_ratio := 30, avg_price := 0,
             trade_count := 0, ma_volume := 0, direction := Direction.buy,
             reason := Reason.imbalance } ∧
    ((spikeCond {} { ts := 0, buy_volume := 30, sell_volume := 1 } →
        Reason.imbalance = Reason.spike) ∧
     (¬ spikeCond {} { ts := 0, buy_volume := 30, sell_volume := 1 } →
        imbalanceCond {} { ts := 0, buy_volume := 30, sell_volume := 1 } →
        Reason.imbalance = Reason.imbalance) ∧
     (¬ spikeCond {} { ts := 0, buy_volume := 30, sell_volume := 1 } →
        ¬ imbalanceCond {} { ts := 0, buy_volume := 30, sell_volume := 1 } →
        Reason.imbalance = Reason.volume_exceeded)) :=
  ⟨by norm_num [process_event, spikeCond, imbalanceCond, volumeExceededCond, buySellRatio],
    emitted_reason_priority {} { ts := 0, buy_volume := 30, sell_volume := 1 }
      { ts := 0, buy_volume := 30, sell_volume := 1, buy_sell_ratio := 30, avg_price := 0,
        trade_count := 0, ma_volume := 0, direction := Direction.buy,
        reason := Reason.imbalance }
      (by norm_num [process_event, spikeCond, imbalanceCond, volumeExceededCond, buySellRatio])⟩

/-- Observable actions performed by `process_event` after it has built
`spike_data` (lines 77-85 of the analyzer): the audit-log append, the
callback invocations in registration order, and the optional warning log
line. -/
inductive Action
  | append (d : SpikeData)
  | callback (i : ℕ) (d : SpikeData)
  | logWarn (d : SpikeData)
  deriving DecidableEq, Repr

/-- Effect trace of one `process_event` call with `n` registered
callbacks, in the statement order of the Python code: the file append
(when `save_path` is set) comes first, then the callbacks, then the log
line (when `enable_logging` is set). -/
def process_event_trace (cfg : AnalyzerConfig) (n : ℕ) (e : TradeAggregate) : List Action :=
  match process_event cfg e with
  | none => []
  | some d =>
      (if cfg.save_path ≠ "" then [Action.append d] else []) ++
      (List.range n).map (fun i => Action.callback i d) ++
      (if cfg.enable_logging then [Action.logWarn d] else [])

/-- Executes an effect trace against the audit-log file, aborting at the
first callback whose index satisfies `fails` — this models a callback
that raises an exception, which in Python propagates out of
`process_event` and skips all remaining statements. -/
def runTrace (fails : ℕ → Bool) : List Action → List SpikeData → List SpikeData
  | [], log => log
  | Action.append d :: rest, log => runTrace fails rest (log ++ [d])
  | Action.callback i _ :: rest, log => if fails i then log else runTrace fails rest log
  | Action.logWarn _ :: rest, log => runTrace fails rest log

theorem runTrace_mem (fails : ℕ → Bool) (tr : List Action) (log : List SpikeData)
    (d : SpikeData) (hd : d ∈ log) : d ∈ runTrace fails tr log := by
  induction tr generalizing log with
  | nil => simpa [runTrace] using hd
  | cons a rest ih =>
    cases a with
    | append d2 => exact ih _ (List.mem_append_left _ hd)
    | callback i d2 =>
      by_cases hf : fails i
      · simpa [runTrace, hf] using hd
      · simpa [runTrace, hf] using ih _ hd
    | logWarn d2 => exact ih _ hd

/-- C2: whenever a record is emitted and a save path is configured, the
first action in the effect trace of `process_event` is the audit-log
append — it strictly precedes every callback invocation — and therefore,
whichever callback raises, the record is in the audit log after the
aborted run. -/
theorem audit_append_before_callbacks (cfg : AnalyzerConfig) (n : ℕ) (e : TradeAggregate)
    (d : SpikeData) (fails : ℕ → Bool) (log : List SpikeData)
    (hpath : cfg.save_path ≠ "") (h : process_event cfg e = some d) :
    (process_event_trace cfg n e).head? = some (Action.append d) ∧
    d ∈ runTrace fails (process_event_trace cfg n e) log := by
  unfold process_event_trace
  rw [h]
  dsimp only
  rw [if_pos hpath]
  refine ⟨rfl, ?_⟩
  show d ∈ runTrace fails (Action.append d :: _) log
  rw [runTrace]
  exact runTrace_mem _ _ _ _ (List.mem_append_right _ (List.mem_singleton.mpr rfl))

/-- Concrete aggregate used by the C2 witness. -/
def aggB : TradeAggregate := { ts := 0, buy_volume := 40, sell_volume := 2 }

/-- The record `process_event` emits on `aggB` with the default
configuration. -/
def spikeB : SpikeData :=
  { ts := 0, buy_volume := 40, sell_volume := 2, buy_sell_ratio := 20, avg_price := 0,
    trade_count := 0, ma_volume := 0, direction := Direction.buy, reason := Reason.imbalance }

theorem audit_append_before_callbacks_witness :
    AnalyzerConfig.save_path {} ≠ "" ∧
    process_event {} aggB = some spikeB ∧
    ((process_event_trace {} 2 aggB).head? = some (Action.append spikeB) ∧
      spikeB ∈ runTrace (fun i => decide (i = 0)) (process_event_trace {} 2 aggB) []) :=
  ⟨by decide,
    by norm_num [process_event, spikeCond, imbalanceCond, volumeExceededCond, buySellRatio,
      aggB, spikeB],
    audit_append_before_callbacks {} 2 aggB spikeB (fun i => decide (i = 0)) [] (by decide)
      (by norm_num [process_event, spikeCond, imbalanceCond, volumeExceededCond, buySellRatio,
        aggB, spikeB])⟩

/-- Audit-log file contents at record granularity; `none` models an
absent file.  `TradeActivityAnalyzer.__init__`, lines 31-33: the file is
opened in write mode (creating it empty) only when a save path is
configured and the file does not already exist. -/
def analyzerInitFile (save_path : String) (file : Option (List SpikeData)) :
    Option (List SpikeData) :=
  if save_path ≠ "" ∧ file = none then some [] else file

/-- File effect of one `process_event` call, lines 77-79: when a record
is emitted and a save path is configured, the record is written in
append mode (which creates the file when absent); otherwise the file is
untouched. -/
def process_event_file (cfg : AnalyzerConfig) (file : Option (List SpikeData))
    (e : TradeAggregate) : Option (List SpikeData) :=
  match process_event cfg e with
  | none => file
  | some d =>
      if cfg.save_path ≠ "" then
        match file with
        | some l => some (l ++ [d])
        | none => some [d]
      else file

/-- C9: with a save path configured, construction creates the audit-log
file empty when absent and leaves an existing file untouched, and each
`process_event` call changes an existing file only by appending at most
one emitted record. -/
theorem audit_log_append_only (cfg : AnalyzerConfig) (l : List SpikeData) (e : TradeAggregate)
    (hpath : cfg.save_path ≠ "") :
    analyzerInitFile cfg.save_path none = some [] ∧
    (∀ f : List SpikeData, analyzerInitFile cfg.save_path (some f) = some f) ∧
    ∃ app : List SpikeData, app.length ≤ 1 ∧
      process_event_file cfg (some l) e = some (l ++ app) ∧
      ∀ d ∈ app, process_event cfg e = some d := by
  refine ⟨by simp [analyzerInitFile, hpath], fun f => by simp [analyzerInitFile], ?_⟩
  cases hpe : process_event cfg e with
  | none => exact ⟨[], by simp, by simp [process_event_file, hpe], by simp⟩
  | some d =>
    exact ⟨[d], by simp, by simp [process_event_file, hpe, hpath], by simp [hpe]⟩

theorem audit_log_append_only_witness :
    AnalyzerConfig.save_path {} ≠ "" ∧
    (analyzerInitFile (AnalyzerConfig.save_path {}) none = some [] ∧
     (∀ f : List SpikeData, analyzerInitFile (AnalyzerConfig.save_path {}) (some f) = some f) ∧
     ∃ app : List SpikeData, app.length ≤ 1 ∧
       process_event_file {} (some []) { ts := 0 } = some ([] ++ app) ∧
       ∀ d ∈ app, process_event {} { ts := 0 } = some d) :=
  ⟨by decide, audit_log_append_only {} [] { ts := 0 } (by decide)⟩

/-- Python dictionaries with rational values, as association lists in
insertion order. -/
abbrev Dict := List (String × ℚ)

/-- Adding one key-value pair to a dictionary viewed as a lookup
function: the new binding shadows any older one. -/
def dictInsert (d : String → Option ℚ) (kv : String × ℚ) : String → Option ℚ :=
  fun k => if k = kv.1 then some kv.2 else d k

/-- Splicing `kvs` into the dictionary `d`, as `{**d, **kvs}` does:
bindings later in `kvs` win over earlier ones and over `d`. -/
def dictExtend (d : String → Option ℚ) (kvs : Dict) : String → Option ℚ :=
  kvs.foldl dictInsert d

/-- A dictionary literal: the bindings of `kvs` over the empty
dictionary. -/
def dictOfList (kvs : Dict) : String → Option ℚ :=
  dictExtend (fun _ => none) kvs

/-- The value of the last binding of `k` in `kvs`, if any — the value a
Python dict built from `kvs` associates to `k`. -/
def lookupLast (kvs : Dict) (k : String) : Option ℚ :=
  kvs.foldl (fun acc p => if p.1 = k then some p.2 else acc) none

theorem foldl_lookup_acc (kvs : Dict) (k : String) (acc : Option ℚ) :
    kvs.foldl (fun a p => if p.1 = k then some p.2 else a) acc =
      match kvs.foldl (fun a p => if p.1 = k then some p.2 else a) none with
      | some v => some v
      | none => acc := by
  induction kvs generalizing acc with
  | nil => rfl
  | cons q rest ih =>
    show rest.foldl _ (if q.1 = k then some q.2 else acc) = _
    by_cases hq : q.1 = k
    · have h1 : (q :: rest).foldl (fun a p => if p.1 = k then some p.2 else a) none =
          rest.foldl (fun a p => if p.1 = k then some p.2 else a) (some q.2) := by
        show rest.foldl _ (if q.1 = k then some q.2 else none) = _
        rw [if_pos hq]
      rw [if_pos hq, h1, ih (some q.2)]
      cases rest.foldl (fun a p => if p.1 = k then some p.2 else a) none <;> rfl
    · have h1 : (q :: rest).foldl (fun a p => if p.1 = k then some p.2 else a) none =
          rest.foldl (fun a p => if p.1 = k then some p.2 else a) none := by
        show rest.foldl _ (if q.1 = k then some q.2 else none) = _
        rw [if_neg hq]
      rw [if_neg hq, h1, ih acc]

theorem dictExtend_lookup (d : String → Option ℚ) (kvs : Dict) (k : String) :
    dictExtend d kvs k =
      match lookupLast kvs k with
      | some v => some v
      | none => d k := by
  induction kvs generalizing d with
  | nil => rfl
  | cons q rest ih =>
    have hstep : lookupLast (q :: rest) k =
        match lookupLast rest k with
        | some v => some v
        | none => if q.1 = k then some q.2 else none := by
      show rest.foldl _ (if q.1 = k then some q.2 else none) = _
      rw [foldl_lookup_acc rest k]
      rfl
    show dictExtend (dictInsert d q) rest k = _
    rw [ih, hstep]
    cases hrest : lookupLast rest k with
    | some v => rfl
    | none =>
      by_cases hq : q.1 = k
      · subst hq
        simp [dictInsert]
      · have hq2 : ¬ k = q.1 := fun h => hq h.symm
        simp [dictInsert, hq, hq2]

theorem dictExtend_of_lookup_none (d : String → Option ℚ) (kvs : Dict) (k : String)
    (hk : lookupLast kvs k = none) : dictExtend d kvs k = d k := by
  rw [dictExtend_lookup, hk]

theorem dictExtend_of_lookup_some (d : String → Option ℚ) (kvs : Dict) (k : String) (v : ℚ)
    (hk : lookupLast kvs k = some v) : dictExtend d kvs k = some v := by
  rw [dictExtend_lookup, hk]

/-- The fields of `CombinedStreamRunner` used by the enrichment logic
(runner.py lines 52-54): the timestamp of the last activity spike, the
spike-flag time-to-live, and the cached latest trade aggregate. -/
structure RunnerState where
  last_activity_spike_ts : Option ℚ
  activity_spike_ttl : ℚ := 1
  latest_trade_agg : Dict := []

/-- Embeds `CombinedStreamRunner._handle_trade_aggregate` (lines 87-89): caches
the aggregate dictionary. -/
def handle_trade_aggregate (st : RunnerState) (agg : Dict) : RunnerState :=
  { st with latest_trade_agg := agg }

/-- Embeds `CombinedStreamRunner._handle_activity_spike` (lines 124-128):
records the spike timestamp `spike_data["ts"]`. -/
def handle_activity_spike (st : RunnerState) (d : SpikeData) : RunnerState :=
  { st with last_activity_spike_ts := some d.ts }

/-- What `_handle_orderbook_update` reads off the order book: the
results of `get_mid_price` (`none` models a missing mid price),
`get_imbalance`, `get_near_price_volume` and `last_update_ts`. -/
structure OrderBookView where
  last_update_ts : ℚ
  mid_price : Option ℚ
  imbalance : ℚ
  bid_volume : ℚ
  ask_volume : ℚ
  near_price_volume : Dict

/-- Lines 101-106 of the runner: the activity-spike feature and the new
stored timestamp.  The Python guard is
`if self._last_activity_spike_ts and (now - ts < ttl)`, so a stored
timestamp that is `None` or exactly `0` is falsy and takes the `else`
branch, which resets the stored timestamp to `None`. -/
def activityFeature (st : RunnerState) (now : ℚ) : ℚ × Option ℚ :=
  match st.last_activity_spike_ts with
  | some t0 =>
      if t0 ≠ 0 ∧ now - t0 < st.activity_spike_ttl then (1, some t0) else (0, none)
  | none => (0, none)

/-- The event dictionary literal of lines 108-117: the six explicit
entries, then `**near_price_volume`, then `**self._latest_trade_agg`,
later bindings winning. -/
def obEvent (st : RunnerState) (ob : OrderBookView) (mid now : ℚ) : String → Option ℚ :=
  dictExtend
    (dictExtend
      (dictOfList
        [("ts", ob.last_update_ts), ("mid_price", mid), ("imbalance", ob.imbalance),
         ("bid_volume", ob.bid_volume), ("ask_volume", ob.ask_volume),
         ("activity_spike", (activityFeature st now).1)])
      ob.near_price_volume)
    st.latest_trade_agg

/-- Embeds `CombinedStreamRunner._handle_orderbook_update` (lines 91-118):
returns the new runner state and the event passed to
`merger.add_orderbook`, or `none` when the handler returned early
because `mid_price` was falsy (`None` or `0`). -/
def handle_orderbook_update (st : RunnerState) (ob : OrderBookView) (now : ℚ) :
    RunnerState × Option (String → Option ℚ) :=
  match ob.mid_price with
  | none => (st, none)
  | some mid =>
      if mid = 0 then (st, none)
      else
        ({ st with last_activity_spike_ts := (activityFeature st now).2 },
          some (obEvent st ob mid now))

/-- C5: once an aggregate is cached by `_handle_trade_aggregate`, every
event `_handle_orderbook_update` emits maps each key bound in the
aggregate to the aggregate's value — the aggregate wins over the
order-book-derived entries, in particular for the `ts` key. -/
theorem cached_aggregate_wins (st : RunnerState) (agg : Dict) (ob : OrderBookView) (now : ℚ)
    (st2 : RunnerState) (ev : String → Option ℚ) (k : String) (v : ℚ)
    (h : handle_orderbook_update (handle_trade_aggregate st agg) ob now = (st2, some ev))
    (hk : lookupLast agg k = some v) :
    ev k = some v := by
  unfold handle_orderbook_update at h
  cases hm : ob.mid_price with
  | none => rw [hm] at h; simp at h
  | some mid =>
      rw [hm] at h
      dsimp only at h
      by_cases h0 : mid = 0
      · rw [if_pos h0] at h; simp at h
      · rw [if_neg h0] at h
        simp only [Prod.mk.injEq, Option.some.injEq] at h
        rw [← h.2]
        exact dictExtend_of_lookup_some _ _ _ _ hk

theorem cached_aggregate_wins_witness :
    handle_orderbook_update
        (handle_trade_aggregate { last_activity_spike_ts := none } [("ts", 42)])
        { last_update_ts := 7, mid_price := some 100, imbalance := 0, bid_volume := 1,
          ask_volume := 1, near_price_volume := [] } 9 =
      ({ last_activity_spike_ts := none, latest_trade_agg := [("ts", 42)] },
        some (obEvent { last_activity_spike_ts := none, latest_trade_agg := [("ts", 42)] }
          { last_update_ts := 7, mid_price := some 100, imbalance := 0, bid_volume := 1,
            ask_volume := 1, near_price_volume := [] } 100 9)) ∧
    lookupLast [("ts", 42)] "ts" = some 42 ∧
    obEvent { last_activity_spike_ts := none, latest_trade_agg := [("ts", 42)] }
        { last_update_ts := 7, mid_price := some 100, imbalance := 0, bid_volume := 1,
          ask_volume := 1, near_price_volume := [] } 100 9 "ts" = some 42 :=
  ⟨by simp [handle_orderbook_update, handle_trade_aggregate, activityFeature], by simp [lookupLast],
    cached_aggregate_wins { last_activity_spike_ts := none } [("ts", 42)]
      { last_update_ts := 7, mid_price := some 100, imbalance := 0, bid_volume := 1,
        ask_volume := 1, near_price_volume := [] } 9
      { last_activity_spike_ts := none, latest_trade_agg := [("ts", 42)] }
      (obEvent { last_activity_spike_ts := none, latest_trade_agg := [("ts", 42)] }
        { last_update_ts := 7, mid_price := some 100, imbalance := 0, bid_volume := 1,
          ask_volume := 1, near_price_volume := [] } 100 9) "ts" 42
      (by simp [handle_orderbook_update, handle_trade_aggregate, activityFeature])
      (by simp [lookupLast])⟩

/-- C10: when the mid price is falsy (`None` or `0`) the handler returns
early, leaving the state untouched and emitting nothing; consequently
every event it passes to `merger.add_orderbook` carries a non-`None`,
non-zero `mid_price` (the cached aggregate and the near-price dictionary
not binding that key, as the trade aggregates and near-price volumes of
this system never do). -/
theorem mid_price_guard (st : RunnerState) (ob : OrderBookView) (now : ℚ)
    (hagg : lookupLast st.latest_trade_agg "mid_price" = none)
    (hnpv : lookupLast ob.near_price_volume "mid_price" = none) :
    ((ob.mid_price = none ∨ ob.mid_price = some 0) →
        handle_orderbook_update st ob now = (st, none)) ∧
    (∀ st2 ev, handle_orderbook_update st ob now = (st2, some ev) →
        ∃ m, m ≠ 0 ∧ ob.mid_price = some m ∧ ev "mid_price" = some m) := by
  constructor
  · rintro (hm | hm) <;> simp [handle_orderbook_update, hm]
  · intro st2 ev h
    unfold handle_orderbook_update at h
    cases hm : ob.mid_price with
    | none => rw [hm] at h; simp at h
    | some mid =>
        rw [hm] at h
        dsimp only at h
        by_cases h0 : mid = 0
        · rw [if_pos h0] at h; simp at h
        · rw [if_neg h0] at h
          simp only [Prod.mk.injEq, Option.some.injEq] at h
          refine ⟨mid, h0, rfl, ?_⟩
          rw [← h.2]
          unfold obEvent
          rw [dictExtend_of_lookup_none _ _ _ hagg, dictExtend_of_lookup_none _ _ _ hnpv]
          rfl

/-- Runner state for the C10 witness: a cached aggregate without a
`mid_price` key. -/
def stG : RunnerState :=
  { last_activity_spike_ts := none, latest_trade_agg := [("buy_volume", 5)] }

/-- Order book view for the C10 witness. -/
def obG : OrderBookView :=
  { last_update_ts := 7, mid_price := some 100, imbalance := 0, bid_volume := 1, ask_volume := 2,
    near_price_volume := [("near_bid_volume", 3)] }

theorem mid_price_guard_witness :
    lookupLast stG.latest_trade_agg "mid_price" = none ∧
    lookupLast obG.near_price_volume "mid_price" = none ∧
    (((obG.mid_price = none ∨ obG.mid_price = some 0) →
        handle_orderbook_update stG obG 9 = (stG, none)) ∧
     (∀ st2 ev, handle_orderbook_update stG obG 9 = (st2, some ev) →
        ∃ m, m ≠ 0 ∧ obG.mid_price = some m ∧ ev "mid_price" = some m)) :=
  ⟨rfl, rfl, mid_price_guard stG obG 9 rfl rfl⟩

/-- Runner state for the C3 counterexample: an activity spike recorded
at timestamp 0. -/
def stCE : RunnerState := { last_activity_spike_ts := some 0 }

/-- Order book view for the C3 counterexample. -/
def obCE : OrderBookView :=
  { last_update_ts := 0, mid_price := some 100, imbalance := 0, bid_volume := 1, ask_volume := 1,
    near_price_volume := [] }

/-- C3 counterexample: a spike recorded at `t0 = 0` and checked at
`now = 1/2` is strictly within the TTL (`1/2 - 0 < 1`), yet the emitted
event carries `activity_spike = 0` and the stored timestamp is reset:
the guard `if self._last_activity_spike_ts and ...` treats the stored
timestamp `0` as absent, because `0.0` is falsy in Python. -/
theorem activity_ttl_counterexample :
    ((1:ℚ)/2 - 0 < 1) ∧
    Option.map (fun ev => ev "activity_spike") (handle_orderbook_update stCE obCE (1/2)).2 =
      some (some 0) ∧
    (handle_orderbook_update stCE obCE (1/2)).1.last_activity_spike_ts = none := by
  refine ⟨by norm_num, ?_, ?_⟩
  · rfl
  · rfl

/-- C3 amended: for every event the handler emits (the cached aggregate
and near-price dictionaries not binding `activity_spike`), the
`activity_spike` field is 1 precisely when a spike timestamp `t0` is
stored, `t0` is truthy (nonzero), and `now - t0` is strictly below the
TTL — and then the stored timestamp is kept; in every other case the
field is 0 and the stored timestamp is reset to `None`.  Expiry happens
purely at this check at emission time, with no separate timer. -/
theorem activity_spike_ttl (st : RunnerState) (ob : OrderBookView) (now : ℚ)
    (st2 : RunnerState) (ev : String → Option ℚ)
    (hagg : lookupLast st.latest_trade_agg "activity_spike" = none)
    (hnpv : lookupLast ob.near_price_volume "activity_spike" = none)
    (h : handle_orderbook_update st ob now = (st2, some ev)) :
    ((∃ t0, st.last_activity_spike_ts = some t0 ∧ t0 ≠ 0 ∧ now - t0 < st.activity_spike_ttl) →
        ev "activity_spike" = some 1 ∧ st2.last_activity_spike_ts = st.last_activity_spike_ts) ∧
    (¬ (∃ t0, st.last_activity_spike_ts = some t0 ∧ t0 ≠ 0 ∧ now - t0 < st.activity_spike_ttl) →
        ev "activity_spike" = some 0 ∧ st2.last_activity_spike_ts = none) := by
  unfold handle_orderbook_update at h
  cases hm : ob.mid_price with
  | none => rw [hm] at h; simp at h
  | some mid =>
      rw [hm] at h
      dsimp only at h
      by_cases h0 : mid = 0
      · rw [if_pos h0] at h; simp at h
      · rw [if_neg h0] at h
        simp only [Prod.mk.injEq, Option.some.injEq] at h
        obtain ⟨hst2, hev⟩ := h
        have hfield : ev "activity_spike" = some (activityFeature st now).1 := by
          rw [← hev]
          unfold obEvent
          rw [dictExtend_of_lookup_none _ _ _ hagg, dictExtend_of_lookup_none _ _ _ hnpv]
          rfl
        constructor
        · rintro ⟨t0, hts, ht0, hlt⟩
          have hf : activityFeature st now = (1, some t0) := by
            unfold activityFeature
            rw [hts]
            show (if t0 ≠ 0 ∧ now - t0 < st.activity_spike_ttl then ((1:ℚ), some t0)
              else ((0:ℚ), none)) = (1, some t0)
            rw [if_pos ⟨ht0, hlt⟩]
          refine ⟨by rw [hfield, hf], ?_⟩
          rw [← hst2]
          simp [hf, hts]
        · intro hn
          have hf : activityFeature st now = (0, none) := by
            unfold activityFeature
            cases hts : st.last_activity_spike_ts with
            | none => rfl
            | some t0 =>
                show (if t0 ≠ 0 ∧ now - t0 < st.activity_spike_ttl then ((1:ℚ), some t0)
                  else ((0:ℚ), none)) = (0, none)
                rw [if_neg]
                intro hc
                exact hn ⟨t0, hts, hc.1, hc.2⟩
          refine ⟨by rw [hfield, hf], ?_⟩
          rw [← hst2]
          simp [hf]

/-- Runner state for the C3 witness: an activity spike recorded at the
truthy timestamp 10. -/
def stW3 : RunnerState := { last_activity_spike_ts := some 10 }

/-- Order book view for the C3 witness. -/
def obW3 : OrderBookView :=
  { last_update_ts := 7, mid_price := some 100, imbalance := 0, bid_volume := 1, ask_volume := 1,
    near_price_volume := [] }

theorem activity_spike_ttl_witness :
    lookupLast stW3.latest_trade_agg "activity_spike" = none ∧
    lookupLast obW3.near_price_volume "activity_spike" = none ∧
    handle_orderbook_update stW3 obW3 (21/2) = (stW3, some (obEvent stW3 obW3 100 (21/2))) ∧
    (((∃ t0, stW3.last_activity_spike_ts = some t0 ∧ t0 ≠ 0 ∧
          (21:ℚ)/2 - t0 < stW3.activity_spike_ttl) →
        obEvent stW3 obW3 100 (21/2) "activity_spike" = some 1 ∧
          stW3.last_activity_spike_ts = stW3.last_activity_spike_ts) ∧
     (¬ (∃ t0, stW3.last_activity_spike_ts = some t0 ∧ t0 ≠ 0 ∧
          (21:ℚ)/2 - t0 < stW3.activity_spike_ttl) →
        obEvent stW3 obW3 100 (21/2) "activity_spike" = some 0 ∧
          stW3.last_activity_spike_ts = none)) := by
  have hh : handle_orderbook_update stW3 obW3 (21/2) =
      (stW3, some (obEvent stW3 obW3 100 (21/2))) := by
    norm_num [handle_orderbook_update, activityFeature, stW3, obW3]
  exact ⟨rfl, rfl, hh, activity_spike_ttl stW3 obW3 (21/2) stW3
    (obEvent stW3 obW3 100 (21/2)) rfl rfl hh⟩

/-- The awaited operations of `CombinedStreamRunner.stop`
(runner.py lines 166-192), in program order. -/
inductive StopAction
  | stopOrderbook
  | stopTrades
  | awaitDataSources
  | stopMerger
  | awaitMerger
  | cancelTask (i : ℕ)
  | awaitTasks
  deriving DecidableEq, Repr

/-- Embeds `CombinedStreamRunner.stop` as a transition on the `_running` flag
that yields the ordered sequence of shutdown actions: nothing when not
running; otherwise stop both data sources and await them (`gather`),
stop and await the merger, then cancel each task `i` with
`taskDone.getD i true = false` (`not task.done()`) and await all tasks. -/
def runner_stop (running : Bool) (taskDone : List Bool) : Bool × List StopAction :=
  if running then
    (false,
      [StopAction.stopOrderbook, StopAction.stopTrades, StopAction.awaitDataSources,
       StopAction.stopMerger, StopAction.awaitMerger] ++
      (((List.range taskDone.length).filter fun i => !taskDone.getD i true).map
        StopAction.cancelTask) ++
      [StopAction.awaitTasks])
  else (running, [])

/-- C4: `stop()` on a non-running runner performs no action; on a
running runner it clears the flag and performs, in order: stopping and
awaiting both data sources, then stopping and awaiting the merger, then
cancelling exactly the unfinished tasks, then awaiting all tasks. -/
theorem stop_two_phase (td : List Bool) :
    runner_stop false td = (false, []) ∧
    ∃ cancels : List ℕ,
      runner_stop true td =
        (false,
          [StopAction.stopOrderbook, StopAction.stopTrades, StopAction.awaitDataSources,
           StopAction.stopMerger, StopAction.awaitMerger] ++
          cancels.map StopAction.cancelTask ++ [StopAction.awaitTasks]) ∧
      ∀ i, i ∈ cancels ↔ i < td.length ∧ td.getD i true = false := by
  refine ⟨rfl, (List.range td.length).filter fun i => !td.getD i true, rfl, fun i => ?_⟩
  simp [List.mem_filter, List.mem_range]

theorem stop_two_phase_witness :
    runner_stop false [true, false, false] = (false, []) ∧
    ∃ cancels : List ℕ,
      runner_stop true [true, false, false] =
        (false,
          [StopAction.stopOrderbook, StopAction.stopTrades, StopAction.awaitDataSources,
           StopAction.stopMerger, StopAction.awaitMerger] ++
          cancels.map StopAction.cancelTask ++ [StopAction.awaitTasks]) ∧
      ∀ i, i ∈ cancels ↔ i < [true, false, false].length ∧
        [true, false, false].getD i true = false :=
  stop_two_phase [true, false, false]

/-- Outcome of `ModelRunner(model_path)` seen by the orchestrator:
`construct p = none` models the constructor raising.  Lines 56-61 of the
runner: construction is attempted only for a truthy `model_path`, and a
raised exception is caught, logged, and leaves `self.model_runner` as
`None`, so `__init__` completes normally either way. -/
def initModelRunner (model_path : Option String) (construct : String → Option Unit) :
    Option Unit :=
  match model_path with
  | none => none
  | some p => if p = "" then none else construct p

/-- The callback subscriptions `_setup_callbacks` makes (runner.py
lines 63-85), in registration order; the merge-inference callback is
registered only when a model runner exists. -/
inductive CallbackReg
  | orderbookToMerger
  | orderbookToSignalDetector
  | signalHandler
  | rawTradeToMerger
  | tradeAggCache
  | tradeAggToAnalyzer
  | activitySpikeFlag
  | mergeInference
  deriving DecidableEq, Repr

/-- Embeds `CombinedStreamRunner._setup_callbacks`. -/
def setup_callbacks (model_runner : Option Unit) : List CallbackReg :=
  [CallbackReg.orderbookToMerger, CallbackReg.orderbookToSignalDetector,
   CallbackReg.signalHandler, CallbackReg.rawTradeToMerger, CallbackReg.tradeAggCache,
   CallbackReg.tradeAggToAnalyzer, CallbackReg.activitySpikeFlag] ++
  (if model_runner.isSome then [CallbackReg.mergeInference] else [])

/-- Embeds `CombinedStreamRunner._handle_inference` (lines 130-143): returns
the record on which `predict` is invoked, or `none` when the guard
`if not self.model_runner` returns early. -/
def handle_inference (model_runner : Option Unit) (record : String → Option ℚ) :
    Option (String → Option ℚ) :=
  match model_runner with
  | none => none
  | some _ => some record

/-- C8: if `ModelRunner` construction raises, the runner is left with no
model runner (`__init__` completing normally), the merge-inference
callback is never registered, and `_handle_inference` never invokes a
prediction — the pipeline runs degraded without inference. -/
theorem degraded_without_inference (p : String) (construct : String → Option Unit)
    (hfail : construct p = none) :
    initModelRunner (some p) construct = none ∧
    CallbackReg.mergeInference ∉ setup_callbacks (initModelRunner (some p) construct) ∧
    ∀ record, handle_inference (initModelRunner (some p) construct) record = none := by
  have hmr : initModelRunner (some p) construct = none := by
    unfold initModelRunner
    dsimp only
    by_cases hp : p = ""
    · rw [if_pos hp]
    · rw [if_neg hp, hfail]
  refine ⟨hmr, ?_, fun record => ?_⟩
  · rw [hmr]
    simp [setup_callbacks]
  · rw [hmr]
    rfl

theorem degraded_without_inference_witness :
    (fun _ : String => (none : Option Unit)) "model.pkl" = none ∧
    (initModelRunner (some "model.pkl") (fun _ => none) = none ∧
     CallbackReg.mergeInference ∉
        setup_callbacks (initModelRunner (some "model.pkl") (fun _ => none)) ∧
     ∀ record, handle_inference (initModelRunner (some "model.pkl") (fun _ => none)) record =
        none) :=
  ⟨rfl, degraded_without_inference "model.pkl" (fun _ => none) rfl⟩

end Lobo
